import Mathlib

/-!
Verification of the CSAS → SharePoint statement-upload pipeline
(`src/main.py`, class `CSASSharePointUploader`).

The pipeline is shallowly embedded: external collaborator behaviour
(the downloader and uploader executables, the filesystem contents of the
side-effect report file, the workspace directory listing) is supplied by
explicit oracle structures, and each Python method becomes a pure Lean
function on an explicit state record.
-/

namespace CsasSharePoint

/-- A JSON value, as produced and consumed by the pipeline via Python's
`json` module.  The program only ever writes natural-number counts, so
numbers are modelled as `Nat`. -/
inductive Json where
  | null
  | bool (b : Bool)
  | num (n : Nat)
  | str (s : String)
  | arr (elems : List Json)
  | obj (fields : List (String × Json))

/-- Python truthiness of an optional string (`os.getenv` result):
`None` and the empty string are falsy. -/
def truthyStr : Option String → Bool
  | none => false
  | some s => !s.isEmpty

/-- Python truthiness of a JSON value (`if x:` on the parsed object). -/
def Json.truthy : Json → Bool
  | .null => false
  | .bool b => b
  | .num n => n != 0
  | .str s => !s.isEmpty
  | .arr xs => !xs.isEmpty
  | .obj fs => !fs.isEmpty

/-- Field lookup on a JSON object (`d.get(k)`), `none` when the value is
not an object or the key is absent. -/
def jsonGet (j : Json) (k : String) : Option Json :=
  match j with
  | .obj fs => fs.lookup k
  | _ => none

/-- `os.path.basename` for the slash-separated paths the pipeline uses. -/
def basename (p : String) : String :=
  (p.splitOn "/").getLastD p

/-- Python whitespace, as `str.strip()` removes it. -/
def isPyWhitespace (c : Char) : Bool :=
  c = Char.ofNat 32 || c = Char.ofNat 9 || c = Char.ofNat 10 || c = Char.ofNat 13
    || c = Char.ofNat 11 || c = Char.ofNat 12

/-- Python `str.strip()`: remove leading and trailing whitespace. -/
def pyStrip (s : String) : String :=
  String.mk (((s.data.dropWhile isPyWhitespace).reverse.dropWhile
    isPyWhitespace).reverse)

/-! ## Side-effect report reader (`_load_temp_result`) -/

/-- What the side-effect report file holds when a stage tries to read it:
absent (`none`), valid JSON, or text that does not parse as JSON. -/
inductive FileContent where
  | jsonContent (j : Json)
  | rawContent (s : String)

/-- The dictionary built by `_load_temp_result`:
`{'source': ..., 'success': ..., 'data': ...}` (`data` is `None`,
i.e. `Json.null`, until something is loaded). -/
structure ToolResult where
  source : String
  success : Bool
  data : Json

/-- `CSASSharePointUploader._load_temp_result`: parse the temporary
result file as JSON; on a JSON decode error fall back to the stripped
raw text wrapped as `{'raw_output': text}` when that text is non-empty;
when the file is absent (or no temporary result file is configured)
return the default `success=False, data=None` record. -/
def load_temp_result (source : String) (tempResultFile : Option String)
    (content : Option FileContent) : ToolResult :=
  if truthyStr tempResultFile then
    match content with
    | some (.jsonContent j) => { source := source, success := true, data := j }
    | some (.rawContent s) =>
        let t := pyStrip s
        if t.isEmpty then { source := source, success := false, data := .null }
        else { source := source, success := true,
               data := .obj [("raw_output", .str t)] }
    | none => { source := source, success := false, data := .null }
  else { source := source, success := false, data := .null }

/-- `CSASSharePointUploader._backup_temp_result`: when the temporary
result file is configured and exists, copy it to
`<temp_result_file>.<source>.backup` and return that path, else `None`. -/
def backup_temp_result (source : String) (tempResultFile : Option String)
    (content : Option FileContent) : Option String :=
  match tempResultFile with
  | some t =>
      if !t.isEmpty && content.isSome then some (t ++ "." ++ source ++ ".backup")
      else none
  | none => none

/-! ## Environment validator (`_check_environment`) -/

/-- The process environment, as `os.getenv` sees it. -/
def Env : Type := String → Option String

def required_csas : List String := ["CSAS_API_KEY", "CSAS_ACCESS_TOKEN"]
def required_csas_account : List String := ["CSAS_ACCOUNT_UUID", "CSAS_ACCOUNT_IBAN"]
def required_office365 : List String := ["OFFICE365_TENANT", "OFFICE365_SITE"]

/-- The `missing` list accumulated by
`CSASSharePointUploader._check_environment`: falsy credential variables
in order, then both account variables when neither is truthy, then
falsy service-location variables in order. -/
def check_environment_missing (env : Env) : List String :=
  (required_csas.filter (fun v => !truthyStr (env v)))
    ++ (if required_csas_account.any (fun v => truthyStr (env v)) then []
        else required_csas_account)
    ++ (required_office365.filter (fun v => !truthyStr (env v)))

/-- `CSASSharePointUploader._check_environment`: true iff nothing is
missing. -/
def check_environment (env : Env) : Bool :=
  (check_environment_missing env).isEmpty

/-- The single error message logged when validation fails. -/
def check_environment_log (env : Env) : Option String :=
  if (check_environment_missing env).isEmpty then none
  else some ("Missing required environment variables: "
              ++ String.intercalate ", " (check_environment_missing env))

/-! ## Pipeline state (`CSASSharePointUploader` instance attributes) -/

/-- One entry of `self.upload_results`: the loaded tool result updated
with `filename`, `filepath`, `upload_success` and `backup_file`. -/
structure UploadRecord where
  source : String
  success : Bool
  data : Json
  filename : String
  filepath : String
  upload_success : Bool
  backup_file : Option String

/-- The mutable attributes of a `CSASSharePointUploader` instance that
the pipeline reads and writes, plus the `RESULT_FILE` entry of the
process environment.  `downloadResult = none` models the initial empty
dict `self.download_result = {}`. -/
structure UploaderState where
  temp_dir : String
  downloaded_files : List String
  original_result_file : Option String
  temp_result_file : Option String
  downloadResult : Option ToolResult
  /-- The `'backup_file'` key of `self.download_result`
  (`none` = key absent, it is only added when a backup was made). -/
  downloadBackup : Option String
  upload_results : List UploadRecord
  envResultFile : Option String

/-- The state right after `__init__`, given the workspace path and the
value of `RESULT_FILE` in the environment. -/
def initState (tempDir : String) (resultFileEnv : Option String) : UploaderState :=
  { temp_dir := tempDir
    downloaded_files := []
    original_result_file := resultFileEnv
    temp_result_file := none
    downloadResult := none
    downloadBackup := none
    upload_results := []
    envResultFile := resultFileEnv }

/-- `CSASSharePointUploader._setup_temp_result_file`: when the original
`RESULT_FILE` is truthy, point both the instance attribute and the
`RESULT_FILE` environment variable at `<temp_dir>/temp_result.json`. -/
def setup_temp_result_file (st : UploaderState) : UploaderState :=
  if truthyStr st.original_result_file then
    let t := st.temp_dir ++ "/temp_result.json"
    { st with temp_result_file := some t, envResultFile := some t }
  else st

/-- `CSASSharePointUploader._restore_result_file_env`: restore
`RESULT_FILE` when the remembered original is truthy, otherwise delete
it from the environment if present. -/
def restore_result_file_env (st : UploaderState) : UploaderState :=
  if truthyStr st.original_result_file then
    { st with envResultFile := st.original_result_file }
  else { st with envResultFile := none }

/-! ## Download stage (`download_statements`) -/

/-- Outcome of one external process invocation via `subprocess.run`. -/
inductive ProcOutcome where
  | exited (code : Int)
  | timedOut
  | calledProcessError
deriving DecidableEq

/-- External behaviour observed by the download stage. -/
structure DownloadOracle where
  /-- How the `csas-statement-downloader` process ended. -/
  outcome : ProcOutcome
  /-- The `glob` listing of the workspace directory after the process. -/
  workspaceFiles : List String
  /-- Contents of the temporary result file after the process
  (`none` = the file does not exist). -/
  reportContent : Option FileContent

/-- `CSASSharePointUploader.download_statements`: set up the temporary
result file, run the downloader; on exit code 0 record the workspace
listing minus the temporary result file as the downloaded files and
succeed; on non-zero exit, timeout or `CalledProcessError` fail and
leave the downloaded files untouched.  Either way, load and back up the
downloader's side-effect report. -/
def download_statements (o : DownloadOracle) (st0 : UploaderState) :
    Bool × UploaderState :=
  let st1 := setup_temp_result_file st0
  let success : Bool := o.outcome == ProcOutcome.exited 0
  let st2 :=
    if success then
      { st1 with downloaded_files :=
          match st1.temp_result_file with
          | some t => o.workspaceFiles.filter (fun f => f ≠ t)
          | none => o.workspaceFiles }
    else st1
  let dr := load_temp_result "download" st2.temp_result_file o.reportContent
  let backup := backup_temp_result "download" st2.temp_result_file o.reportContent
  (success, { st2 with downloadResult := some dr, downloadBackup := backup })

/-! ## Upload stage (`upload_to_sharepoint`) -/

/-- External behaviour observed by the upload stage, per file. -/
structure UploadOracle where
  /-- `os.path.exists` for each downloaded file at upload time. -/
  fileExists : String → Bool
  /-- How the `file2sharepoint` process for this file ended. -/
  outcome : String → ProcOutcome
  /-- Contents of the temporary result file right after uploading this
  file (the file is cleared before each invocation, so this is exactly
  what the tool wrote; `none` = the file does not exist). -/
  reportContent : String → Option FileContent

/-- One iteration of the upload loop for file `f`: `none` when the file
does not exist (the loop `continue`s without a record), else the record
appended to `self.upload_results`. -/
def upload_file (o : UploadOracle) (tempResultFile : Option String)
    (f : String) : Option UploadRecord :=
  if o.fileExists f then
    let upload_success := o.outcome f == .exited 0
    let r := load_temp_result "upload" tempResultFile (o.reportContent f)
    let backup := backup_temp_result ("upload_" ++ basename f) tempResultFile
        (o.reportContent f)
    some { source := r.source, success := r.success, data := r.data,
           filename := basename f, filepath := f,
           upload_success := upload_success, backup_file := backup }
  else none

/-- Result of the upload stage: the boolean it returns, the records it
appended, and the files for which the uploader collaborator was
actually invoked. -/
structure UploadStageResult where
  stageSuccess : Bool
  records : List UploadRecord
  invocations : List String

/-- `CSASSharePointUploader.upload_to_sharepoint`: with no downloaded
files, return `False` immediately (no collaborator invocation, no
records).  Otherwise iterate the downloaded files in order, skipping
missing files, invoking the uploader once per existing file, recording
one `UploadRecord` per invocation, and return `success_count > 0`. -/
def upload_to_sharepoint (o : UploadOracle) (st : UploaderState) :
    UploadStageResult :=
  if st.downloaded_files.isEmpty then
    { stageSuccess := false, records := [], invocations := [] }
  else
    let records := st.downloaded_files.filterMap
        (upload_file o st.temp_result_file)
    let success_count := (records.filter (fun r => r.upload_success)).length
    { stageSuccess := success_count > 0
      records := records
      invocations := st.downloaded_files.filter o.fileExists }

/-! ## Result aggregator (`_write_final_result`) -/

/-- `download_success` as read in `_write_final_result`:
`self.download_result.get('success', False)`. -/
def UploaderState.download_success (st : UploaderState) : Bool :=
  match st.downloadResult with
  | some r => r.success
  | none => false

/-- `files_downloaded = len(self.downloaded_files)`. -/
def UploaderState.files_downloaded (st : UploaderState) : Nat :=
  st.downloaded_files.length

/-- `upload_attempts = len(self.upload_results)`. -/
def UploaderState.upload_attempts (st : UploaderState) : Nat :=
  st.upload_results.length

/-- `successful_uploads = sum(1 for r in self.upload_results if
r.get('upload_success', False))`. -/
def UploaderState.successful_uploads (st : UploaderState) : Nat :=
  (st.upload_results.filter (fun r => r.upload_success)).length

/-- The `status` selection of `_write_final_result`, as the code's
`if`/`elif` chain writes it. -/
def computeStatus (download_success : Bool) (files_downloaded : Nat)
    (successful_uploads upload_attempts : Nat) : String :=
  if download_success = false ∧ files_downloaded = 0 then "warning"
  else if download_success = true ∧ files_downloaded > 0 ∧
      successful_uploads = upload_attempts then "success"
  else if download_success = true ∧ files_downloaded > 0 ∧
      successful_uploads < upload_attempts then "warning"
  else "error"

/-- The `message` selection of `_write_final_result`. -/
def computeMessage (download_success : Bool) (files_downloaded : Nat)
    (successful_uploads upload_attempts : Nat) : String :=
  if download_success = false ∧ files_downloaded = 0 then
    "No statements were available for download"
  else if download_success = true ∧ files_downloaded > 0 ∧
      successful_uploads = upload_attempts then
    "Successfully downloaded " ++ toString files_downloaded
      ++ " statement(s) and uploaded " ++ toString successful_uploads
      ++ " file(s) to SharePoint"
  else if download_success = true ∧ files_downloaded > 0 ∧
      successful_uploads < upload_attempts then
    "Downloaded " ++ toString files_downloaded
      ++ " statement(s) but only " ++ toString successful_uploads ++ "/"
      ++ toString upload_attempts ++ " uploads succeeded"
  else "Download failed"

/-- The element appended to `uploaded_files` for one successful upload
record: the `url`/`sharepoint_url` value from its data when that data is
a truthy dict holding a truthy one, else the filename. -/
def uploadedEntry (r : UploadRecord) : Json :=
  match r.data with
  | .obj fs =>
      if (Json.obj fs).truthy then
        let u1 := ((fs.lookup "url").getD .null)
        let u := if u1.truthy then u1 else ((fs.lookup "sharepoint_url").getD .null)
        if u.truthy then u else .str r.filename
      else .str r.filename
  | _ => .str r.filename

/-- The `artifacts` object of the final report. -/
def artifactsJson (st : UploaderState) : Json :=
  let successfulRecords := st.upload_results.filter (fun r => r.upload_success)
  let uploadedFields :=
    if st.successful_uploads > 0 then
      let uploaded_files := successfulRecords.map uploadedEntry
      if uploaded_files.isEmpty then []
      else [("uploaded_statements", Json.arr uploaded_files)]
    else []
  let downloadedFields :=
    if st.downloaded_files.isEmpty then []
    else [("downloaded_statements",
           Json.arr (st.downloaded_files.map (fun f => Json.str (basename f))))]
  .obj (uploadedFields ++ downloadedFields)

/-- The `metrics` object of the final report. -/
def metricsJson (st : UploaderState) : Json :=
  .obj [("files_downloaded", .num st.files_downloaded),
        ("upload_attempts", .num st.upload_attempts),
        ("successful_uploads", .num st.successful_uploads),
        ("download_success", .str (if st.download_success then "true" else "false"))]

/-- `self.download_result` as a JSON object (the initial `{}` when the
download stage never ran; the `backup_file` key only when added). -/
def downloadDetailsJson (st : UploaderState) : Json :=
  match st.downloadResult with
  | none => .obj []
  | some r =>
      .obj ([("source", .str r.source), ("success", .bool r.success),
             ("data", r.data)]
        ++ (match st.downloadBackup with
            | some b => [("backup_file", .str b)]
            | none => []))

/-- One entry of `self.upload_results` as a JSON object (dict insertion
order: the loaded keys, then the keys added by `update`). -/
def UploadRecord.toJson (r : UploadRecord) : Json :=
  .obj [("source", .str r.source), ("success", .bool r.success),
        ("data", r.data), ("filename", .str r.filename),
        ("filepath", .str r.filepath),
        ("upload_success", .bool r.upload_success),
        ("backup_file", match r.backup_file with
                        | some b => .str b
                        | none => .null)]

/-- The `file2sharepoint_reports` entries: one per upload record whose
`data` is truthy. -/
def sharepointReportsJson (st : UploaderState) : List Json :=
  (st.upload_results.filter (fun r => r.data.truthy)).map (fun r =>
    .obj [("filename", .str r.filename), ("success", .bool r.upload_success),
          ("report", r.data)])

/-- The full final report document assembled by `_write_final_result`,
in dict insertion order. -/
def buildFinalDoc (timestamp : String) (st : UploaderState) : Json :=
  let base : List (String × Json) :=
    [("status", .str (computeStatus st.download_success st.files_downloaded
                        st.successful_uploads st.upload_attempts)),
     ("timestamp", .str timestamp),
     ("message", .str (computeMessage st.download_success st.files_downloaded
                        st.successful_uploads st.upload_attempts)),
     ("artifacts", artifactsJson st),
     ("metrics", metricsJson st),
     ("download_details", downloadDetailsJson st),
     ("upload_details", .arr (st.upload_results.map UploadRecord.toJson))]
  let withDl :=
    match st.downloadResult with
    | some r => if r.data.truthy then
          base ++ [("csas_downloader_report", r.data)]
        else base
    | none => base
  let reports := sharepointReportsJson st
  .obj (if reports.isEmpty then withDl
        else withDl ++ [("file2sharepoint_reports", .arr reports)])

/-- `CSASSharePointUploader._write_final_result`: a no-op when the
remembered original `RESULT_FILE` is falsy, else the document written to
that path. -/
def write_final_result (timestamp : String) (st : UploaderState) :
    Option Json :=
  if truthyStr st.original_result_file then some (buildFinalDoc timestamp st)
  else none

/-! ## The complete run (`CSASSharePointUploader.run`) -/

/-- Everything external a whole run observes.  The three `Raises` flags
model an unexpected exception escaping the corresponding stage call
inside the `try` block (modelled as raised on entry to the call). -/
structure RunOracle where
  env : Env
  download : DownloadOracle
  upload : UploadOracle
  /-- Output of `date -Iseconds` when the final report is assembled. -/
  timestamp : String
  checkRaises : Bool
  downloadRaises : Bool
  uploadRaises : Bool

/-- Observable outcome of one `run` invocation. -/
structure RunResult where
  exitCode : Nat
  /-- The sequence of writes `run` performed to the original
  `RESULT_FILE` path. -/
  finalWrites : List Json
  /-- `RESULT_FILE` in the process environment after `run` returns. -/
  envResultFileAfter : Option String
  /-- The instance state when the `finally` block runs. -/
  state : UploaderState

/-- The `try` body of `CSASSharePointUploader.run`: the exit code it
produces and the instance state the `finally` block will observe. -/
def runTryBlock (o : RunOracle) (tempDir : String) : Nat × UploaderState :=
  let st0 := initState tempDir (o.env "RESULT_FILE")
  if o.checkRaises then (4, st0)
  else if !check_environment o.env then (1, st0)
  else if o.downloadRaises then (4, st0)
  else
    let dr := download_statements o.download st0
    if !dr.1 then (2, dr.2)
    else if o.uploadRaises then (4, dr.2)
    else
      let ur := upload_to_sharepoint o.upload dr.2
      let st2 := { dr.2 with upload_results := dr.2.upload_results ++ ur.records }
      if !ur.stageSuccess then (3, st2) else (0, st2)

/-- `CSASSharePointUploader.run`: the `try` body maps an environment
check failure to 1, a download failure to 2, an upload failure to 3,
success to 0 and an escaped exception to 4; the `finally` block then
writes the final result (when configured), restores `RESULT_FILE`, and
cleans up the workspace. -/
def runPipeline (o : RunOracle) (tempDir : String) : RunResult :=
  let cs := runTryBlock o tempDir
  { exitCode := cs.1
    finalWrites :=
      match write_final_result o.timestamp cs.2 with
      | some doc => [doc]
      | none => []
    envResultFileAfter := (restore_result_file_env cs.2).envResultFile
    state := cs.2 }

/-! ## JSON serialization and parsing

`_write_final_result` serializes the report with `json.dump` and the
report is read back with `json.load` (see `validate_report.py` and the
repository's tests).  Both are modelled here: a renderer producing the
canonical (whitespace-free) JSON text with Python's string escaping, and
a recursive-descent parser for the same grammar. -/

def quoteChar : Char := Char.ofNat 34
def backslashChar : Char := Char.ofNat 92
def openBraceChar : Char := Char.ofNat 123
def closeBraceChar : Char := Char.ofNat 125

/-- Lower-case hex digit for a value below 16. -/
def hexDigitChar (n : Nat) : Char :=
  if n < 10 then Char.ofNat (48 + n) else Char.ofNat (87 + n)

/-- JSON string escaping of one character, as `json.dump` emits it
(with `ensure_ascii=False`): named escapes for the quote, backslash and
common control characters, `\u00XX` for other control characters, and
everything else literal. -/
def escChar (c : Char) : List Char :=
  if c = quoteChar then [backslashChar, quoteChar]
  else if c = backslashChar then [backslashChar, backslashChar]
  else if c = Char.ofNat 10 then [backslashChar, 'n']
  else if c = Char.ofNat 9 then [backslashChar, 't']
  else if c = Char.ofNat 13 then [backslashChar, 'r']
  else if c = Char.ofNat 8 then [backslashChar, 'b']
  else if c = Char.ofNat 12 then [backslashChar, 'f']
  else if c.toNat < 32 then
    [backslashChar, 'u', '0', '0',
     hexDigitChar (c.toNat / 16), hexDigitChar (c.toNat % 16)]
  else [c]

def escapeChars : List Char → List Char
  | [] => []
  | c :: cs => escChar c ++ escapeChars cs

def digitChar (n : Nat) : Char := Char.ofNat (48 + n)

/-- Decimal digits of a natural number, most significant first. -/
def natChars (n : Nat) : List Char :=
  if n < 10 then [digitChar n]
  else natChars (n / 10) ++ [digitChar (n % 10)]
decreasing_by exact Nat.div_lt_self (by omega) (by omega)

mutual

/-- Render a JSON value as its (compact) textual form. -/
def renderJson : Json → List Char
  | .num n => natChars n
  | .str s => quoteChar :: (escapeChars s.data ++ [quoteChar])
  | .bool b => if b then 't' :: ['r', 'u', 'e'] else 'f' :: ['a', 'l', 's', 'e']
  | .null => 'n' :: ['u', 'l', 'l']
  | .arr xs => '[' :: (renderElems xs ++ [']'])
  | .obj fs => openBraceChar :: (renderMembers fs ++ [closeBraceChar])

/-- Render array elements separated by commas. -/
def renderElems : List Json → List Char
  | [] => []
  | [x] => renderJson x
  | x :: y :: xs => renderJson x ++ (',' :: renderElems (y :: xs))

/-- Render object members separated by commas. -/
def renderMembers : List (String × Json) → List Char
  | [] => []
  | [(k, v)] =>
      quoteChar :: (escapeChars k.data ++ (quoteChar :: ':' :: renderJson v))
  | (k, v) :: m :: fs =>
      (quoteChar :: (escapeChars k.data ++ (quoteChar :: ':' :: renderJson v)))
        ++ (',' :: renderMembers (m :: fs))

end

/-- Value of a hex digit character. -/
def parseHexDigit (c : Char) : Option Nat :=
  if 48 ≤ c.toNat ∧ c.toNat ≤ 57 then some (c.toNat - 48)
  else if 97 ≤ c.toNat ∧ c.toNat ≤ 102 then some (c.toNat - 87)
  else none

/-- Characters denoted by the single-character escapes. -/
def unescapeEsc (e : Char) : Option Char :=
  if e = quoteChar then some quoteChar
  else if e = backslashChar then some backslashChar
  else if e = '/' then some '/'
  else if e = 'n' then some (Char.ofNat 10)
  else if e = 't' then some (Char.ofNat 9)
  else if e = 'r' then some (Char.ofNat 13)
  else if e = 'b' then some (Char.ofNat 8)
  else if e = 'f' then some (Char.ofNat 12)
  else none

/-- Parse a JSON string body (the part after the opening quote) up to
and including the closing quote, returning the decoded characters and
the remaining input. -/
def unescape : List Char → Option (List Char × List Char)
  | [] => none
  | c :: cs =>
    if c = quoteChar then some ([], cs)
    else if c = backslashChar then
      match cs with
      | [] => none
      | e :: cs2 =>
        if e = 'u' then
          match cs2 with
          | h1 :: h2 :: h3 :: h4 :: cs3 =>
            match parseHexDigit h1, parseHexDigit h2, parseHexDigit h3,
                parseHexDigit h4, unescape cs3 with
            | some a, some b, some c2, some d, some (s, r) =>
                some (Char.ofNat (((a * 16 + b) * 16 + c2) * 16 + d) :: s, r)
            | _, _, _, _, _ => none
          | _ => none
        else
          match unescapeEsc e, unescape cs2 with
          | some ec, some (s, r) => some (ec :: s, r)
          | _, _ => none
    else
      match unescape cs with
      | some (s, r) => some (c :: s, r)
      | none => none

/-- Numeric value of a digit string. -/
def digitsToNat (ds : List Char) : Nat :=
  ds.foldl (fun acc c => acc * 10 + (c.toNat - 48)) 0

/-- Consume an expected literal word. -/
def expectWord : List Char → List Char → Option (List Char)
  | [], cs => some cs
  | _ :: _, [] => none
  | w :: ws, c :: cs => if c = w then expectWord ws cs else none

mutual

/-- Recursive-descent JSON value parser (`fuel` bounds the recursion
depth; any fuel at least `fuelNeed` of the value suffices). -/
def parseValue : Nat → List Char → Option (Json × List Char)
  | 0, _ => none
  | _ + 1, [] => none
  | fuel + 1, c :: rest =>
    if c = quoteChar then
      (unescape rest).map (fun p => (.str (String.mk p.1), p.2))
    else if c = '[' then
      if rest.head? = some ']' then some (.arr [], rest.tail)
      else (parseElems fuel rest).map (fun p => (.arr p.1, p.2))
    else if c = openBraceChar then
      if rest.head? = some closeBraceChar then some (.obj [], rest.tail)
      else (parseMembers fuel rest).map (fun p => (.obj p.1, p.2))
    else if c.isDigit then
      some (.num (digitsToNat ((c :: rest).takeWhile Char.isDigit)),
            (c :: rest).dropWhile Char.isDigit)
    else if c = 'n' then (expectWord ['u', 'l', 'l'] rest).map (fun r => (.null, r))
    else if c = 't' then (expectWord ['r', 'u', 'e'] rest).map (fun r => (.bool true, r))
    else if c = 'f' then (expectWord ['a', 'l', 's', 'e'] rest).map (fun r => (.bool false, r))
    else none

/-- Parse one or more comma-separated array elements up to the closing
bracket. -/
def parseElems : Nat → List Char → Option (List Json × List Char)
  | 0, _ => none
  | fuel + 1, cs =>
    match parseValue fuel cs with
    | some (v, r1) =>
        match r1 with
        | c :: r2 =>
            if c = ',' then (parseElems fuel r2).map (fun p => (v :: p.1, p.2))
            else if c = ']' then some ([v], r2)
            else none
        | [] => none
    | none => none

/-- Parse one or more comma-separated object members up to the closing
brace. -/
def parseMembers : Nat → List Char → Option (List (String × Json) × List Char)
  | 0, _ => none
  | fuel + 1, cs =>
    match cs with
    | c :: rest =>
        if c = quoteChar then
          match unescape rest with
          | some (k, r1) =>
              match r1 with
              | c2 :: r2 =>
                  if c2 = ':' then
                    match parseValue fuel r2 with
                    | some (v, r3) =>
                        match r3 with
                        | c3 :: r4 =>
                            if c3 = ',' then
                              (parseMembers fuel r4).map
                                (fun p => ((String.mk k, v) :: p.1, p.2))
                            else if c3 = closeBraceChar then
                              some ([(String.mk k, v)], r4)
                            else none
                        | [] => none
                    | none => none
                  else none
              | [] => none
          | none => none
        else none
    | [] => none

end

mutual

/-- Recursion budget sufficient to parse the rendering of a value. -/
def fuelNeed : Json → Nat
  | .arr xs => 1 + fuelNeedElems xs
  | .obj fs => 1 + fuelNeedMembers fs
  | _ => 1

def fuelNeedElems : List Json → Nat
  | [] => 1
  | x :: xs => 1 + fuelNeed x + fuelNeedElems xs

def fuelNeedMembers : List (String × Json) → Nat
  | [] => 1
  | (_, v) :: fs => 1 + fuelNeed v + fuelNeedMembers fs

end

/-- `true` when the input does not begin with a decimal digit (so a
preceding number literal cannot run into it). -/
def notDigitStart : List Char → Bool
  | [] => true
  | c :: _ => !c.isDigit

/-! ## Round-trip lemmas for the JSON embedding -/

theorem string_mk_data (s : String) : String.mk s.data = s := rfl

theorem parseHexDigit_hexDigitChar : ∀ n, n < 16 →
    parseHexDigit (hexDigitChar n) = some n := by decide

theorem unescape_escapeChars (s : List Char) :
    ∀ rest, unescape (escapeChars s ++ (quoteChar :: rest)) = some (s, rest) := by
  induction s with
  | nil =>
    intro rest
    rw [show escapeChars [] ++ (quoteChar :: rest) = quoteChar :: rest from rfl,
      unescape.eq_def]
    simp +decide
  | cons c cs ih =>
    intro rest
    by_cases h1 : c = quoteChar
    · subst h1
      simp only [escapeChars, escChar, if_pos rfl, List.cons_append, List.append_assoc]
      rw [unescape.eq_def]
      simp +decide [unescapeEsc, ih]
    by_cases h2 : c = backslashChar
    · subst h2
      simp +decide only [escapeChars, escChar, if_neg, List.cons_append,
        List.append_assoc, reduceIte]
      rw [unescape.eq_def]
      simp +decide [unescapeEsc, ih]
    by_cases h3 : c = Char.ofNat 10
    · subst h3
      simp +decide only [escapeChars, escChar, List.cons_append,
        List.append_assoc, reduceIte]
      rw [unescape.eq_def]
      simp +decide [unescapeEsc, ih]
    by_cases h4 : c = Char.ofNat 9
    · subst h4
      simp +decide only [escapeChars, escChar, List.cons_append,
        List.append_assoc, reduceIte]
      rw [unescape.eq_def]
      simp +decide [unescapeEsc, ih]
    by_cases h5 : c = Char.ofNat 13
    · subst h5
      simp +decide only [escapeChars, escChar, List.cons_append,
        List.append_assoc, reduceIte]
      rw [unescape.eq_def]
      simp +decide [unescapeEsc, ih]
    by_cases h6 : c = Char.ofNat 8
    · subst h6
      simp +decide only [escapeChars, escChar, List.cons_append,
        List.append_assoc, reduceIte]
      rw [unescape.eq_def]
      simp +decide [unescapeEsc, ih]
    by_cases h7 : c = Char.ofNat 12
    · subst h7
      simp +decide only [escapeChars, escChar, List.cons_append,
        List.append_assoc, reduceIte]
      rw [unescape.eq_def]
      simp +decide [unescapeEsc, ih]
    by_cases h8 : c.toNat < 32
    · have hd1 : parseHexDigit (hexDigitChar (c.toNat / 16)) = some (c.toNat / 16) :=
        parseHexDigit_hexDigitChar _ (by omega)
      have hd2 : parseHexDigit (hexDigitChar (c.toNat % 16)) = some (c.toNat % 16) :=
        parseHexDigit_hexDigitChar _ (Nat.mod_lt _ (by omega))
      have h0 : parseHexDigit '0' = some 0 := by decide
      have hc : c.toNat / 16 * 16 + c.toNat % 16 = c.toNat := by omega
      simp only [escapeChars, escChar, h1, h2, h3, h4, h5, h6, h7, h8, if_neg,
        if_pos, if_false, if_true, List.cons_append, List.append_assoc, reduceIte]
      rw [unescape.eq_def]
      simp +decide [h0, hd1, hd2, ih]
      rw [hc]
      exact Char.ofNat_toNat c
    · simp only [escapeChars, escChar, h1, h2, h3, h4, h5, h6, h7, h8, if_neg,
        if_false, List.cons_append, List.append_assoc, reduceIte]
      rw [unescape.eq_def]
      simp +decide [h1, h2, ih]

theorem digitChar_isDigit : ∀ n, n < 10 → (digitChar n).isDigit = true := by decide

theorem digitChar_toNat : ∀ n, n < 10 → (digitChar n).toNat = 48 + n := by decide

theorem natChars_ne_nil (n : Nat) : natChars n ≠ [] := by
  unfold natChars
  split
  · simp
  · simp

theorem natChars_digits (n : Nat) : ∀ c ∈ natChars n, c.isDigit = true := by
  induction n using Nat.strong_induction_on with
  | _ n ih =>
    unfold natChars
    split
    · next h => simpa using digitChar_isDigit n h
    · next h =>
      intro c hc
      rcases List.mem_append.mp hc with h' | h'
      · exact ih (n / 10) (Nat.div_lt_self (by omega) (by omega)) c h'
      · have : c = digitChar (n % 10) := by simpa using h'
        subst this
        exact digitChar_isDigit _ (Nat.mod_lt _ (by omega))

theorem digitsToNat_append_digit (ds : List Char) (c : Char) :
    digitsToNat (ds ++ [c]) = digitsToNat ds * 10 + (c.toNat - 48) := by
  simp [digitsToNat, List.foldl_append]

theorem digitsToNat_natChars (n : Nat) : digitsToNat (natChars n) = n := by
  induction n using Nat.strong_induction_on with
  | _ n ih =>
    unfold natChars
    split
    · next h =>
      simp [digitsToNat, digitChar_toNat n h]
    · next h =>
      rw [digitsToNat_append_digit,
        ih (n / 10) (Nat.div_lt_self (by omega) (by omega)),
        digitChar_toNat _ (Nat.mod_lt _ (by omega))]
      have := Nat.div_add_mod n 10
      omega

theorem span_digits (ds : List Char) (rest : List Char)
    (hds : ∀ c ∈ ds, c.isDigit = true) (hrest : notDigitStart rest = true) :
    (ds ++ rest).takeWhile Char.isDigit = ds ∧
      (ds ++ rest).dropWhile Char.isDigit = rest := by
  induction ds with
  | nil =>
    cases rest with
    | nil => simp
    | cons r rs =>
      have : r.isDigit = false := by simpa [notDigitStart] using hrest
      simp [List.takeWhile, List.dropWhile, this]
  | cons d ds ih =>
    have hd : d.isDigit = true := hds d (by simp)
    have ih' := ih (fun c hc => hds c (by simp [hc]))
    simp [List.takeWhile, List.dropWhile, hd, ih'.1, ih'.2]

/-! Unfolding equations for the mutually recursive renderer, fuel
measure, and parser. -/

theorem renderJson_null : renderJson .null = ['n', 'u', 'l', 'l'] := by
  rw [renderJson.eq_def]

theorem renderJson_true : renderJson (.bool true) = ['t', 'r', 'u', 'e'] := by
  rw [renderJson.eq_def]
  simp

theorem renderJson_false : renderJson (.bool false) = ['f', 'a', 'l', 's', 'e'] := by
  rw [renderJson.eq_def]
  simp

theorem renderJson_num (n : Nat) : renderJson (.num n) = natChars n := by
  rw [renderJson.eq_def]

theorem renderJson_str (s : String) :
    renderJson (.str s) = quoteChar :: (escapeChars s.data ++ [quoteChar]) := by
  rw [renderJson.eq_def]

theorem renderJson_arr (xs : List Json) :
    renderJson (.arr xs) = '[' :: (renderElems xs ++ [']']) := by
  rw [renderJson.eq_def]

theorem renderJson_obj (fs : List (String × Json)) :
    renderJson (.obj fs) = openBraceChar :: (renderMembers fs ++ [closeBraceChar]) := by
  rw [renderJson.eq_def]

theorem renderElems_nil : renderElems [] = [] := by
  rw [renderElems.eq_def]

theorem renderElems_single (x : Json) : renderElems [x] = renderJson x := by
  rw [renderElems.eq_def]

theorem renderElems_cons2 (x y : Json) (xs : List Json) :
    renderElems (x :: y :: xs) = renderJson x ++ (',' :: renderElems (y :: xs)) := by
  rw [renderElems.eq_def]

theorem renderMembers_nil : renderMembers [] = [] := by
  rw [renderMembers.eq_def]

theorem renderMembers_single (k : String) (v : Json) :
    renderMembers [(k, v)]
      = quoteChar :: (escapeChars k.data ++ (quoteChar :: ':' :: renderJson v)) := by
  rw [renderMembers.eq_def]

theorem renderMembers_cons2 (k : String) (v : Json) (m : String × Json)
    (fs : List (String × Json)) :
    renderMembers ((k, v) :: m :: fs)
      = (quoteChar :: (escapeChars k.data ++ (quoteChar :: ':' :: renderJson v)))
          ++ (',' :: renderMembers (m :: fs)) := by
  rw [renderMembers.eq_def]

theorem fuelNeed_null : fuelNeed .null = 1 := by rw [fuelNeed.eq_def]

theorem fuelNeed_bool (b : Bool) : fuelNeed (.bool b) = 1 := by rw [fuelNeed.eq_def]

theorem fuelNeed_num (n : Nat) : fuelNeed (.num n) = 1 := by rw [fuelNeed.eq_def]

theorem fuelNeed_str (s : String) : fuelNeed (.str s) = 1 := by rw [fuelNeed.eq_def]

theorem fuelNeed_arr (xs : List Json) : fuelNeed (.arr xs) = 1 + fuelNeedElems xs := by
  rw [fuelNeed.eq_def]

theorem fuelNeed_obj (fs : List (String × Json)) :
    fuelNeed (.obj fs) = 1 + fuelNeedMembers fs := by
  rw [fuelNeed.eq_def]

theorem fuelNeedElems_nil : fuelNeedElems [] = 1 := by
  rw [fuelNeedElems.eq_def]

theorem fuelNeedElems_cons (x : Json) (xs : List Json) :
    fuelNeedElems (x :: xs) = 1 + fuelNeed x + fuelNeedElems xs := by
  rw [fuelNeedElems.eq_def]

theorem fuelNeedMembers_nil : fuelNeedMembers [] = 1 := by
  rw [fuelNeedMembers.eq_def]

theorem fuelNeedMembers_cons (k : String) (v : Json) (fs : List (String × Json)) :
    fuelNeedMembers ((k, v) :: fs) = 1 + fuelNeed v + fuelNeedMembers fs := by
  rw [fuelNeedMembers.eq_def]

theorem fuelNeed_pos (v : Json) : 1 ≤ fuelNeed v := by
  cases v with
  | null => rw [fuelNeed_null]
  | bool b => rw [fuelNeed_bool]
  | num n => rw [fuelNeed_num]
  | str s => rw [fuelNeed_str]
  | arr xs => rw [fuelNeed_arr]; omega
  | obj fs => rw [fuelNeed_obj]; omega

/-! Every rendered value starts with a character that selects the right
parser branch and is distinct from the structural delimiters. -/

def goodValueStart (c : Char) : Bool :=
  c = quoteChar || c = '[' || c = openBraceChar || c.isDigit
    || c = 'n' || c = 't' || c = 'f'

theorem natChars_start (n : Nat) :
    ∃ d ds, natChars n = d :: ds ∧ d.isDigit = true := by
  cases h : natChars n with
  | nil => exact absurd h (natChars_ne_nil n)
  | cons d ds =>
    refine ⟨d, ds, rfl, natChars_digits n d ?_⟩
    rw [h]
    exact List.mem_cons_self d ds

theorem renderJson_start (v : Json) :
    ∃ c cs, renderJson v = c :: cs ∧ goodValueStart c = true := by
  cases v with
  | null => exact ⟨'n', _, renderJson_null, by decide⟩
  | bool b =>
    cases b with
    | true => exact ⟨'t', _, renderJson_true, by decide⟩
    | false => exact ⟨'f', _, renderJson_false, by decide⟩
  | num n =>
    obtain ⟨d, ds, hd, hdig⟩ := natChars_start n
    exact ⟨d, ds, by rw [renderJson_num, hd], by simp [goodValueStart, hdig]⟩
  | str s => exact ⟨quoteChar, _, renderJson_str s, by decide⟩
  | arr xs => exact ⟨'[', _, renderJson_arr xs, by decide⟩
  | obj fs => exact ⟨openBraceChar, _, renderJson_obj fs, by decide⟩

theorem goodValueStart_ne (c : Char) (h : goodValueStart c = true) :
    c ≠ ']' ∧ c ≠ closeBraceChar ∧ c ≠ ',' := by
  refine ⟨?_, ?_, ?_⟩ <;> rintro rfl <;> exact absurd h (by decide)

theorem renderElems_start (x : Json) (xs : List Json) :
    ∃ c cs, renderElems (x :: xs) = c :: cs ∧ goodValueStart c = true := by
  obtain ⟨c, cs, hc, hg⟩ := renderJson_start x
  cases xs with
  | nil => exact ⟨c, cs, by rw [renderElems_single, hc], hg⟩
  | cons y ys =>
    exact ⟨c, cs ++ (',' :: renderElems (y :: ys)),
      by rw [renderElems_cons2, hc]; simp, hg⟩

theorem renderMembers_start (kv : String × Json) (fs : List (String × Json)) :
    ∃ cs, renderMembers (kv :: fs) = quoteChar :: cs := by
  obtain ⟨k, v⟩ := kv
  cases fs with
  | nil => exact ⟨_, renderMembers_single k v⟩
  | cons m ms =>
    refine ⟨escapeChars k.data ++ (quoteChar :: ':' :: renderJson v)
      ++ (',' :: renderMembers (m :: ms)), ?_⟩
    rw [renderMembers_cons2]
    simp

/-! The main parse/render round trip, by strong induction on the size
of the value, with one auxiliary lemma per mutually recursive parser. -/

theorem parseElems_renderElems_aux (N : Nat)
    (ihv : ∀ w : Json, sizeOf w ≤ N →
      ∀ (fuel : Nat) (rest : List Char), fuelNeed w ≤ fuel →
        notDigitStart rest = true →
        parseValue fuel (renderJson w ++ rest) = some (w, rest)) :
    ∀ (xs : List Json) (x : Json), (∀ w ∈ x :: xs, sizeOf w ≤ N) →
      ∀ (fuel : Nat) (rest : List Char), fuelNeedElems (x :: xs) ≤ fuel →
        parseElems fuel (renderElems (x :: xs) ++ (']' :: rest))
          = some (x :: xs, rest) := by
  intro xs
  induction xs with
  | nil =>
    intro x hsz fuel rest hfuel
    rw [fuelNeedElems_cons, fuelNeedElems_nil] at hfuel
    obtain ⟨g, rfl⟩ : ∃ g, fuel = g + 1 := ⟨fuel - 1, by omega⟩
    have h1 := ihv x (hsz x (by simp)) g (']' :: rest) (by omega)
      (by simp +decide [notDigitStart])
    rw [renderElems_single, parseElems.eq_def]
    simp +decide [h1]
  | cons y ys ih =>
    intro x hsz fuel rest hfuel
    rw [fuelNeedElems_cons] at hfuel
    obtain ⟨g, rfl⟩ : ∃ g, fuel = g + 1 := ⟨fuel - 1, by omega⟩
    have h1 := ihv x (hsz x (by simp)) g
      (',' :: (renderElems (y :: ys) ++ (']' :: rest))) (by omega)
      (by simp +decide [notDigitStart])
    have h2 := ih y (fun w hw => hsz w (List.mem_cons_of_mem x hw)) g rest
      (by omega)
    rw [renderElems_cons2,
      show (renderJson x ++ (',' :: renderElems (y :: ys))) ++ (']' :: rest)
        = renderJson x ++ (',' :: (renderElems (y :: ys) ++ (']' :: rest)))
        by simp,
      parseElems.eq_def]
    simp +decide [h1, h2]

theorem parseMembers_renderMembers_aux (N : Nat)
    (ihv : ∀ w : Json, sizeOf w ≤ N →
      ∀ (fuel : Nat) (rest : List Char), fuelNeed w ≤ fuel →
        notDigitStart rest = true →
        parseValue fuel (renderJson w ++ rest) = some (w, rest)) :
    ∀ (fs : List (String × Json)) (k : String) (v : Json),
      (∀ w ∈ (k, v) :: fs, sizeOf w.2 ≤ N) →
      ∀ (fuel : Nat) (rest : List Char), fuelNeedMembers ((k, v) :: fs) ≤ fuel →
        parseMembers fuel (renderMembers ((k, v) :: fs) ++ (closeBraceChar :: rest))
          = some ((k, v) :: fs, rest) := by
  intro fs
  induction fs with
  | nil =>
    intro k v hsz fuel rest hfuel
    rw [fuelNeedMembers_cons, fuelNeedMembers_nil] at hfuel
    obtain ⟨g, rfl⟩ : ∃ g, fuel = g + 1 := ⟨fuel - 1, by omega⟩
    have hu := unescape_escapeChars k.data
      (':' :: (renderJson v ++ (closeBraceChar :: rest)))
    have h1 := ihv v (hsz (k, v) (by simp)) g (closeBraceChar :: rest)
      (by omega) (by simp +decide [notDigitStart])
    rw [renderMembers_single,
      show (quoteChar :: (escapeChars k.data ++ (quoteChar :: ':' :: renderJson v)))
            ++ (closeBraceChar :: rest)
        = quoteChar :: (escapeChars k.data
            ++ (quoteChar :: (':' :: (renderJson v ++ (closeBraceChar :: rest)))))
        by simp,
      parseMembers.eq_def]
    simp +decide [hu, h1, string_mk_data]
  | cons m ms ih =>
    intro k v hsz fuel rest hfuel
    obtain ⟨mk, mv⟩ := m
    rw [fuelNeedMembers_cons] at hfuel
    obtain ⟨g, rfl⟩ : ∃ g, fuel = g + 1 := ⟨fuel - 1, by omega⟩
    have hu := unescape_escapeChars k.data
      (':' :: (renderJson v
        ++ (',' :: (renderMembers ((mk, mv) :: ms) ++ (closeBraceChar :: rest)))))
    have h1 := ihv v (hsz (k, v) (by simp)) g
      (',' :: (renderMembers ((mk, mv) :: ms) ++ (closeBraceChar :: rest)))
      (by omega) (by simp +decide [notDigitStart])
    have h2 := ih mk mv (fun w hw => hsz w (List.mem_cons_of_mem (k, v) hw))
      g rest (by omega)
    rw [renderMembers_cons2,
      show ((quoteChar :: (escapeChars k.data ++ (quoteChar :: ':' :: renderJson v)))
              ++ (',' :: renderMembers ((mk, mv) :: ms))) ++ (closeBraceChar :: rest)
        = quoteChar :: (escapeChars k.data ++ (quoteChar :: (':' :: (renderJson v
            ++ (',' :: (renderMembers ((mk, mv) :: ms) ++ (closeBraceChar :: rest)))))))
        by simp,
      parseMembers.eq_def]
    simp +decide [hu, h1, h2, string_mk_data]

theorem parse_render_aux :
    ∀ (N : Nat) (v : Json), sizeOf v ≤ N →
      ∀ (fuel : Nat) (rest : List Char), fuelNeed v ≤ fuel →
        notDigitStart rest = true →
        parseValue fuel (renderJson v ++ rest) = some (v, rest) := by
  intro N
  induction N with
  | zero =>
    intro v hv
    exfalso
    cases v <;> simp at hv
  | succ N ih =>
    intro v hv fuel rest hfuel hrest
    cases v with
    | null =>
      rw [fuelNeed_null] at hfuel
      obtain ⟨g, rfl⟩ : ∃ g, fuel = g + 1 := ⟨fuel - 1, by omega⟩
      rw [renderJson_null, parseValue.eq_def]
      simp +decide [expectWord]
    | bool b =>
      rw [fuelNeed_bool] at hfuel
      obtain ⟨g, rfl⟩ : ∃ g, fuel = g + 1 := ⟨fuel - 1, by omega⟩
      cases b with
      | true =>
        rw [renderJson_true, parseValue.eq_def]
        simp +decide [expectWord]
      | false =>
        rw [renderJson_false, parseValue.eq_def]
        simp +decide [expectWord]
    | num n =>
      rw [fuelNeed_num] at hfuel
      obtain ⟨g, rfl⟩ : ∃ g, fuel = g + 1 := ⟨fuel - 1, by omega⟩
      obtain ⟨d, ds, hd, hdig⟩ := natChars_start n
      have hall : ∀ c ∈ d :: ds, c.isDigit = true := by
        rw [← hd]; exact natChars_digits n
      have hspan := span_digits (d :: ds) rest hall hrest
      have hne1 : d ≠ quoteChar := by
        rintro rfl; exact absurd hdig (by decide)
      have hne2 : d ≠ '[' := by
        rintro rfl; exact absurd hdig (by decide)
      have hne3 : d ≠ openBraceChar := by
        rintro rfl; exact absurd hdig (by decide)
      rw [renderJson_num, hd,
        show (d :: ds) ++ rest = d :: (ds ++ rest) by simp,
        parseValue.eq_def]
      simp only [if_neg hne1, if_neg hne2, if_neg hne3, hdig, if_pos]
      rw [show d :: (ds ++ rest) = (d :: ds) ++ rest by simp] at *
      rw [hspan.1, hspan.2, ← hd, digitsToNat_natChars]
    | str s =>
      rw [fuelNeed_str] at hfuel
      obtain ⟨g, rfl⟩ : ∃ g, fuel = g + 1 := ⟨fuel - 1, by omega⟩
      have hu := unescape_escapeChars s.data rest
      rw [renderJson_str,
        show (quoteChar :: (escapeChars s.data ++ [quoteChar])) ++ rest
          = quoteChar :: (escapeChars s.data ++ (quoteChar :: rest)) by simp,
        parseValue.eq_def]
      simp +decide [hu, string_mk_data]
    | arr xs =>
      rw [fuelNeed_arr] at hfuel
      obtain ⟨g, rfl⟩ : ∃ g, fuel = g + 1 := ⟨fuel - 1, by omega⟩
      cases xs with
      | nil =>
        rw [renderJson_arr, renderElems_nil,
          show ('[' :: ([] ++ [']'])) ++ rest = '[' :: (']' :: rest) by simp,
          parseValue.eq_def]
        simp +decide
      | cons x xs =>
        have hsz : ∀ w ∈ x :: xs, sizeOf w ≤ N := by
          intro w hw
          have h1 := List.sizeOf_lt_of_mem hw
          have h2 : sizeOf (Json.arr (x :: xs)) = 1 + sizeOf (x :: xs) := by simp
          omega
        have helems := parseElems_renderElems_aux N ih xs x hsz g rest (by omega)
        obtain ⟨c0, cs0, hc0, hg0⟩ := renderElems_start x xs
        have hne := (goodValueStart_ne c0 hg0).1
        rw [hc0] at helems
        simp only [List.cons_append] at helems
        rw [renderJson_arr,
          show ('[' :: (renderElems (x :: xs) ++ [']'])) ++ rest
            = '[' :: (renderElems (x :: xs) ++ (']' :: rest)) by simp,
          hc0, parseValue.eq_def]
        simp +decide [hne, helems]
    | obj fs =>
      rw [fuelNeed_obj] at hfuel
      obtain ⟨g, rfl⟩ : ∃ g, fuel = g + 1 := ⟨fuel - 1, by omega⟩
      cases fs with
      | nil =>
        rw [renderJson_obj,
          show (openBraceChar :: (renderMembers [] ++ [closeBraceChar])) ++ rest
            = openBraceChar :: (closeBraceChar :: rest)
            by rw [renderMembers_nil]; simp,
          parseValue.eq_def]
        simp +decide
      | cons kv fs =>
        obtain ⟨k, v⟩ := kv
        have hsz : ∀ w ∈ (k, v) :: fs, sizeOf w.2 ≤ N := by
          intro w hw
          have h1 := List.sizeOf_lt_of_mem hw
          have h2 : sizeOf (Json.obj ((k, v) :: fs)) = 1 + sizeOf ((k, v) :: fs) := by
            simp
          have h3 : sizeOf w.2 < sizeOf w := by
            obtain ⟨a, b⟩ := w
            simp
          omega
        have hmem := parseMembers_renderMembers_aux N ih fs k v hsz g rest (by omega)
        obtain ⟨cs0, hc0⟩ := renderMembers_start (k, v) fs
        rw [hc0] at hmem
        simp only [List.cons_append] at hmem
        rw [renderJson_obj,
          show (openBraceChar :: (renderMembers ((k, v) :: fs) ++ [closeBraceChar])) ++ rest
            = openBraceChar :: (renderMembers ((k, v) :: fs) ++ (closeBraceChar :: rest))
            by simp,
          hc0, parseValue.eq_def]
        simp +decide [hmem]

/-- The parse/render round trip for JSON values, for any sufficient
recursion budget. -/
theorem parseValue_renderJson (v : Json) (fuel : Nat) (rest : List Char)
    (hfuel : fuelNeed v ≤ fuel) (hrest : notDigitStart rest = true) :
    parseValue fuel (renderJson v ++ rest) = some (v, rest) :=
  parse_render_aux (sizeOf v) v le_rfl fuel rest hfuel hrest

/-- The rendered report text, as `json.dump` writes it to the file. -/
def renderJsonString (v : Json) : String := String.mk (renderJson v)

/-- `json.load` on a file's text: parse one JSON value covering the
whole input (with recursion budget `fuel`). -/
def parseJsonWith (fuel : Nat) (s : String) : Option Json :=
  match parseValue fuel s.data with
  | some (v, []) => some v
  | _ => none

theorem parseJsonWith_renderJsonString (v : Json) (fuel : Nat)
    (hfuel : fuelNeed v ≤ fuel) :
    parseJsonWith fuel (renderJsonString v) = some v := by
  have h := parseValue_renderJson v fuel [] hfuel (by decide)
  rw [List.append_nil] at h
  simp [parseJsonWith, renderJsonString, h]

/-! ## Facts about the pipeline stages -/

theorem download_statements_original (o : DownloadOracle) (st : UploaderState) :
    (download_statements o st).2.original_result_file = st.original_result_file := by
  cases hs : o.outcome == ProcOutcome.exited 0 <;>
    cases ht : truthyStr st.original_result_file <;>
      simp [download_statements, setup_temp_result_file, hs, ht]

theorem download_statements_upload_results (o : DownloadOracle) (st : UploaderState) :
    (download_statements o st).2.upload_results = st.upload_results := by
  cases hs : o.outcome == ProcOutcome.exited 0 <;>
    cases ht : truthyStr st.original_result_file <;>
      simp [download_statements, setup_temp_result_file, hs, ht]

theorem runTryBlock_original (o : RunOracle) (d : String) :
    (runTryBlock o d).2.original_result_file = o.env "RESULT_FILE" := by
  have hdco := download_statements_original o.download
    (initState d (o.env "RESULT_FILE"))
  unfold runTryBlock
  cases hc : o.checkRaises <;>
    cases he : check_environment o.env <;>
      cases hdr : o.downloadRaises <;>
        cases hd : (download_statements o.download
            (initState d (o.env "RESULT_FILE"))).1 <;>
          cases hur : o.uploadRaises <;>
            simp_all [initState] <;> split <;> simp_all

theorem upload_to_sharepoint_records_le (o : UploadOracle) (st : UploaderState) :
    (upload_to_sharepoint o st).records.length ≤ st.downloaded_files.length := by
  unfold upload_to_sharepoint
  split
  · simp
  · exact List.length_filterMap_le _ _

theorem upload_success_count_any (o : UploadOracle) (trf : Option String) :
    ∀ files : List String,
      decide (0 < ((files.filterMap (upload_file o trf)).filter
          (fun r => r.upload_success)).length)
        = files.any (fun f => o.fileExists f && (o.outcome f == ProcOutcome.exited 0)) := by
  intro files
  induction files with
  | nil => rfl
  | cons f fs ih =>
    by_cases hf : o.fileExists f
    · by_cases ho : (o.outcome f == ProcOutcome.exited 0) = true
      · simp [upload_file, hf, ho]
      · simp only [Bool.not_eq_true] at ho
        simp [upload_file, hf, ho, ih]
    · simp only [Bool.not_eq_true] at hf
      simp [upload_file, hf, ih]

/-! ## Spec-side definitions

Each follows the specification's wording, for comparison against the
definitions translated from the source. -/

/-- Modelled from the spec (§4.5): the status decision table, rows
evaluated in order — warning when the download did not succeed and zero
files were found; success when the download succeeded, files were found
and every attempted upload succeeded; warning when the download
succeeded, files were found and fewer uploads succeeded than were
attempted; error otherwise. -/
def statusSpecTable (download_success : Bool) (files_found : Nat)
    (successful_uploads attempted_uploads : Nat) : String :=
  if download_success = false ∧ files_found = 0 then "warning"
  else if download_success = true ∧ 0 < files_found ∧
      successful_uploads = attempted_uploads then "success"
  else if download_success = true ∧ 0 < files_found ∧
      successful_uploads < attempted_uploads then "warning"
  else "error"

/-- Modelled from the spec (§4.1, §8): the set of required environment
variables that are missing — a credential or service-location variable
that is unset or empty, or both account-identifier variables when
neither of the two is set. -/
def spec_missing_vars (env : Env) : List String :=
  (required_csas ++ required_csas_account ++ required_office365).filter (fun v =>
    if v = "CSAS_ACCOUNT_UUID" ∨ v = "CSAS_ACCOUNT_IBAN" then
      !truthyStr (env "CSAS_ACCOUNT_UUID") && !truthyStr (env "CSAS_ACCOUNT_IBAN")
    else !truthyStr (env v))

/-! ## Claims -/

/-- **C4**: the environment validator returns true iff both credential
variables are set (non-empty), at least one of the two
account-identifier variables is set, and both service-location
variables are set; and every missing required variable appears in the
single reported `missing` list, not only the first one found. -/
theorem c4_check_environment (env : Env) :
    check_environment env
        = (truthyStr (env "CSAS_API_KEY") && truthyStr (env "CSAS_ACCESS_TOKEN")
            && (truthyStr (env "CSAS_ACCOUNT_UUID")
                || truthyStr (env "CSAS_ACCOUNT_IBAN"))
            && truthyStr (env "OFFICE365_TENANT") && truthyStr (env "OFFICE365_SITE"))
      ∧ (spec_missing_vars env).all
          (fun v => (check_environment_missing env).contains v) = true := by
  simp only [check_environment, check_environment_missing, spec_missing_vars,
    required_csas, required_csas_account, required_office365]
  cases h1 : truthyStr (env "CSAS_API_KEY") <;>
    cases h2 : truthyStr (env "CSAS_ACCESS_TOKEN") <;>
      cases h3 : truthyStr (env "CSAS_ACCOUNT_UUID") <;>
        cases h4 : truthyStr (env "CSAS_ACCOUNT_IBAN") <;>
          cases h5 : truthyStr (env "OFFICE365_TENANT") <;>
            cases h6 : truthyStr (env "OFFICE365_SITE") <;>
              simp +decide [h1, h2, h3, h4, h5, h6, List.filter, List.all,
                List.contains]

/-- **C3**: the upload stage succeeds exactly when some downloaded file
exists and its upload process exits 0 (so it fails iff zero uploads
succeeded, and partial success is stage success), and the uploader
collaborator is invoked exactly for the downloaded files that exist —
in particular not at all when the downloaded-files set is empty. -/
theorem c3_upload_stage (o : UploadOracle) (st : UploaderState) :
    (upload_to_sharepoint o st).stageSuccess
        = st.downloaded_files.any
            (fun f => o.fileExists f && (o.outcome f == ProcOutcome.exited 0))
      ∧ (upload_to_sharepoint o st).invocations
          = st.downloaded_files.filter o.fileExists := by
  unfold upload_to_sharepoint
  by_cases h : st.downloaded_files.isEmpty
  · rw [List.isEmpty_iff] at h
    simp [h]
  · rw [if_neg h]
    exact ⟨upload_success_count_any o st.temp_result_file st.downloaded_files, rfl⟩

/-- **C5**: the download stage (run from a fresh pipeline state)
succeeds exactly when the downloader exits 0; on failure the
downloaded-files set stays empty, and on success it is exactly the
workspace directory listing minus the reserved side-effect report path
(no exclusion applies when no report file is configured). -/
theorem c5_download_stage (o : DownloadOracle) (d : String) (rf : Option String) :
    (download_statements o (initState d rf)).1 = (o.outcome == ProcOutcome.exited 0)
      ∧ (download_statements o (initState d rf)).2.downloaded_files
          = (if o.outcome == ProcOutcome.exited 0 then
               (if truthyStr rf then
                  o.workspaceFiles.filter (fun f => f ≠ d ++ "/temp_result.json")
                else o.workspaceFiles)
             else []) := by
  constructor
  · rfl
  · cases hs : o.outcome == ProcOutcome.exited 0 <;>
      cases ht : truthyStr rf <;>
        simp [download_statements, setup_temp_result_file, initState, hs, ht]

/-- **C6 counterexample**: a side-effect report file that exists and is
not valid JSON, but whose contents strip to the empty string (here a
single space), is *not* captured as a raw-text payload: the reader
returns the no-data result (`success = False`, `data = None`),
contradicting the claim that any existing non-JSON file's contents are
kept. -/
theorem c6_counterexample :
    (load_temp_result "download" (some "/tmp/w/temp_result.json")
        (some (.rawContent " "))).success = false
      ∧ (load_temp_result "download" (some "/tmp/w/temp_result.json")
          (some (.rawContent " "))).data.truthy = false := by decide

/-- **C6 (amended)**: the report reader returns the parsed payload with
`success = True` for a JSON file; for an existing non-JSON file it
returns the *stripped* text wrapped in `raw_output` with
`success = True` provided that stripped text is non-empty, and the
no-data result when the file strips to nothing; and the no-data result
(`success = False`, null payload) for a missing file — never raising. -/
theorem c6_load_temp_result (source : String) (trf : Option String)
    (content : Option FileContent) (htrf : truthyStr trf = true) :
    (∀ j, content = some (.jsonContent j) →
        load_temp_result source trf content = ⟨source, true, j⟩)
      ∧ (∀ s, content = some (.rawContent s) → (pyStrip s).isEmpty = false →
          load_temp_result source trf content
            = ⟨source, true, .obj [("raw_output", .str (pyStrip s))]⟩)
      ∧ (∀ s, content = some (.rawContent s) → (pyStrip s).isEmpty = true →
          load_temp_result source trf content = ⟨source, false, .null⟩)
      ∧ (content = none →
          load_temp_result source trf content = ⟨source, false, .null⟩) := by
  refine ⟨?_, ?_, ?_, ?_⟩
  · rintro j rfl
    simp [load_temp_result, htrf]
  · rintro s rfl hs
    simp [load_temp_result, htrf, hs]
  · rintro s rfl hs
    simp [load_temp_result, htrf, hs]
  · rintro rfl
    simp [load_temp_result, htrf]

/-- **C6 witness**: the amended reader contract applied at concrete
inputs: a JSON `null` report is loaded as a successful result. -/
theorem c6_load_temp_result_witness :
    load_temp_result "upload" (some "/t/temp_result.json")
        (some (.jsonContent Json.null))
      = ⟨"upload", true, Json.null⟩ :=
  (c6_load_temp_result "upload" (some "/t/temp_result.json")
    (some (.jsonContent Json.null)) (by decide)).1 Json.null rfl

/-- Modelled from the spec (§6): the exit-code mapping — 4 for an
unexpected exception anywhere in the pipeline, 1 when the environment
check failed, 2 when the download stage failed, 3 when the upload stage
failed, 0 when every stage succeeded. -/
def exitCodeSpec (o : RunOracle) (tempDir : String) : Nat :=
  if o.checkRaises then 4
  else if !check_environment o.env then 1
  else if o.downloadRaises then 4
  else if !(download_statements o.download
      (initState tempDir (o.env "RESULT_FILE"))).1 then 2
  else if o.uploadRaises then 4
  else if !(upload_to_sharepoint o.upload
      (download_statements o.download
        (initState tempDir (o.env "RESULT_FILE"))).2).stageSuccess then 3
  else 0

/-- **C2**: the process exit code of `run` is exactly the
specification's mapping: 0 on full success, 1 on environment-check
failure, 2 on download failure, 3 on upload failure, 4 on an unexpected
exception. -/
theorem c2_exit_codes (o : RunOracle) (d : String) :
    (runPipeline o d).exitCode = exitCodeSpec o d := by
  show (runTryBlock o d).1 = exitCodeSpec o d
  unfold runTryBlock exitCodeSpec
  cases hc : o.checkRaises <;>
    cases he : check_environment o.env <;>
      cases hdr : o.downloadRaises <;>
        cases hd : (download_statements o.download
            (initState d (o.env "RESULT_FILE"))).1 <;>
          cases hur : o.uploadRaises <;>
            cases hus : (upload_to_sharepoint o.upload
                (download_statements o.download
                  (initState d (o.env "RESULT_FILE"))).2).stageSuccess <;>
              simp_all

/-- **C7**: in the state the aggregator observes at the end of every
run, the number of accumulated upload records never exceeds the number
of discovered downloaded files, and
`successful_uploads ≤ upload_attempts ≤ files_downloaded`. -/
theorem c7_upload_invariants (o : RunOracle) (d : String) :
    (runPipeline o d).state.successful_uploads
        ≤ (runPipeline o d).state.upload_attempts
      ∧ (runPipeline o d).state.upload_attempts
          ≤ (runPipeline o d).state.files_downloaded := by
  have hst : (runPipeline o d).state = (runTryBlock o d).2 := rfl
  have hdu := download_statements_upload_results o.download
    (initState d (o.env "RESULT_FILE"))
  have hrl := upload_to_sharepoint_records_le o.upload
    (download_statements o.download (initState d (o.env "RESULT_FILE"))).2
  have hfl : ∀ l : List UploadRecord,
      (l.filter (fun r => r.upload_success)).length ≤ l.length :=
    fun l => List.length_filter_le _ _
  rw [hst]
  unfold runTryBlock
  cases hc : o.checkRaises <;>
    cases he : check_environment o.env <;>
      cases hdr : o.downloadRaises <;>
        cases hd : (download_statements o.download
            (initState d (o.env "RESULT_FILE"))).1 <;>
          cases hur : o.uploadRaises <;>
            cases hus : (upload_to_sharepoint o.upload
                (download_statements o.download
                  (initState d (o.env "RESULT_FILE"))).2).stageSuccess <;>
              simp_all [initState, UploaderState.successful_uploads,
                UploaderState.upload_attempts, UploaderState.files_downloaded]

/-- **C8**: the final report is written exactly once per run when a
report path is configured (`RESULT_FILE` set to a non-empty value), and
never otherwise — in every run, whichever stage failed and whether or
not an exception escaped. -/
theorem c8_final_report_writes (o : RunOracle) (d : String) :
    (runPipeline o d).finalWrites.length
      = if truthyStr (o.env "RESULT_FILE") then 1 else 0 := by
  have h : (runPipeline o d).finalWrites
      = match write_final_result o.timestamp (runTryBlock o d).2 with
        | some doc => [doc]
        | none => [] := rfl
  rw [h]
  unfold write_final_result
  rw [runTryBlock_original]
  split <;> simp_all

/-- **C10 (amended)**: at the end of every run `RESULT_FILE` is set to
the remembered original value when that value was non-empty, and is
*absent* from the environment otherwise — including the case where it
was set to the empty string at startup, which the restore step deletes
rather than restores. -/
theorem c10_result_file_env (o : RunOracle) (d : String) :
    (runPipeline o d).envResultFileAfter
      = (if truthyStr (o.env "RESULT_FILE") then o.env "RESULT_FILE" else none) := by
  have h : (runPipeline o d).envResultFileAfter
      = (restore_result_file_env (runTryBlock o d).2).envResultFile := rfl
  rw [h]
  unfold restore_result_file_env
  rw [runTryBlock_original]
  split <;> simp_all

/-- A concrete run whose environment has `RESULT_FILE` set to the empty
string, with every other variable unset and all collaborators failing. -/
def c10Oracle : RunOracle :=
  { env := fun v => if v = "RESULT_FILE" then some "" else none
    download := { outcome := .timedOut, workspaceFiles := [], reportContent := none }
    upload := { fileExists := fun _ => false, outcome := fun _ => .timedOut,
                reportContent := fun _ => none }
    timestamp := ""
    checkRaises := false
    downloadRaises := false
    uploadRaises := false }

/-- **C10 counterexample**: with `RESULT_FILE` *set* (to the empty
string) at startup, `run` removes it from the environment instead of
setting it back to its original value, so the environment is not
restored as the claim states. -/
theorem c10_counterexample :
    c10Oracle.env "RESULT_FILE" = some ""
      ∧ (runPipeline c10Oracle "/w").envResultFileAfter = none
      ∧ (runPipeline c10Oracle "/w").envResultFileAfter
          ≠ c10Oracle.env "RESULT_FILE" := by
  refine ⟨by decide, by decide, by decide⟩

theorem computeStatus_eq_spec (ds : Bool) (fd su ua : Nat) :
    computeStatus ds fd su ua = statusSpecTable ds fd su ua := rfl

theorem buildFinalDoc_shape (ts : String) (st : UploaderState) :
    ∃ tail, buildFinalDoc ts st
      = .obj ([("status", .str (computeStatus st.download_success
                  st.files_downloaded st.successful_uploads st.upload_attempts)),
               ("timestamp", .str ts),
               ("message", .str (computeMessage st.download_success
                  st.files_downloaded st.successful_uploads st.upload_attempts)),
               ("artifacts", artifactsJson st),
               ("metrics", metricsJson st)] ++ tail) := by
  unfold buildFinalDoc
  cases hdr : st.downloadResult with
  | none =>
    cases hre : (sharepointReportsJson st).isEmpty
    · refine ⟨[("download_details", downloadDetailsJson st),
               ("upload_details", .arr (st.upload_results.map UploadRecord.toJson)),
               ("file2sharepoint_reports", .arr (sharepointReportsJson st))], ?_⟩
      simp [hdr, hre]
    · refine ⟨[("download_details", downloadDetailsJson st),
               ("upload_details", .arr (st.upload_results.map UploadRecord.toJson))],
        ?_⟩
      simp [hdr, hre]
  | some r =>
    cases hdt : r.data.truthy
    · cases hre : (sharepointReportsJson st).isEmpty
      · refine ⟨[("download_details", downloadDetailsJson st),
                 ("upload_details", .arr (st.upload_results.map UploadRecord.toJson)),
                 ("file2sharepoint_reports", .arr (sharepointReportsJson st))], ?_⟩
        simp [hdr, hdt, hre]
      · refine ⟨[("download_details", downloadDetailsJson st),
                 ("upload_details", .arr (st.upload_results.map UploadRecord.toJson))],
          ?_⟩
        simp [hdr, hdt, hre]
    · cases hre : (sharepointReportsJson st).isEmpty
      · refine ⟨[("download_details", downloadDetailsJson st),
                 ("upload_details", .arr (st.upload_results.map UploadRecord.toJson)),
                 ("csas_downloader_report", r.data),
                 ("file2sharepoint_reports", .arr (sharepointReportsJson st))], ?_⟩
        simp [hdr, hdt, hre]
      · refine ⟨[("download_details", downloadDetailsJson st),
                 ("upload_details", .arr (st.upload_results.map UploadRecord.toJson)),
                 ("csas_downloader_report", r.data)], ?_⟩
        simp [hdr, hdt, hre]

theorem buildFinalDoc_status (ts : String) (st : UploaderState) :
    jsonGet (buildFinalDoc ts st) "status"
      = some (.str (computeStatus st.download_success st.files_downloaded
          st.successful_uploads st.upload_attempts)) := by
  obtain ⟨tail, htail⟩ := buildFinalDoc_shape ts st
  rw [htail]
  simp +decide [jsonGet, List.lookup]

theorem buildFinalDoc_metrics (ts : String) (st : UploaderState) :
    jsonGet (buildFinalDoc ts st) "metrics" = some (metricsJson st) := by
  obtain ⟨tail, htail⟩ := buildFinalDoc_shape ts st
  rw [htail]
  simp +decide [jsonGet, List.lookup]

theorem buildFinalDoc_artifacts (ts : String) (st : UploaderState) :
    jsonGet (buildFinalDoc ts st) "artifacts" = some (artifactsJson st) := by
  obtain ⟨tail, htail⟩ := buildFinalDoc_shape ts st
  rw [htail]
  simp +decide [jsonGet, List.lookup]

/-- **C1**: every run that configures a report path writes exactly the
aggregated document, and that document's `status` field is determined
by the specification's ordered decision table applied to the run's
download-success flag and the three counters. -/
theorem c1_final_status (o : RunOracle) (d : String) :
    ((runPipeline o d).finalWrites
        = (if truthyStr (o.env "RESULT_FILE")
           then [buildFinalDoc o.timestamp (runPipeline o d).state] else []))
      ∧ jsonGet (buildFinalDoc o.timestamp (runPipeline o d).state) "status"
          = some (.str (statusSpecTable (runPipeline o d).state.download_success
              (runPipeline o d).state.files_downloaded
              (runPipeline o d).state.successful_uploads
              (runPipeline o d).state.upload_attempts)) := by
  constructor
  · have h : (runPipeline o d).finalWrites
        = match write_final_result o.timestamp (runPipeline o d).state with
          | some doc => [doc]
          | none => [] := rfl
    rw [h]
    unfold write_final_result
    have hst : (runPipeline o d).state = (runTryBlock o d).2 := rfl
    rw [hst, runTryBlock_original]
    split <;> simp_all
  · rw [buildFinalDoc_status, computeStatus_eq_spec]

/-- **C9**: for every run that writes a final report, serializing the
computed document and parsing the text back as JSON returns exactly the
document, whose `status`, `metrics` and `artifacts` fields are exactly
the values computed during the run. -/
theorem c9_round_trip (o : RunOracle) (d : String) (doc : Json)
    (h : (runPipeline o d).finalWrites = [doc]) :
    parseJsonWith (fuelNeed doc) (renderJsonString doc) = some doc
      ∧ jsonGet doc "status"
          = some (.str (computeStatus (runPipeline o d).state.download_success
              (runPipeline o d).state.files_downloaded
              (runPipeline o d).state.successful_uploads
              (runPipeline o d).state.upload_attempts))
      ∧ jsonGet doc "metrics" = some (metricsJson (runPipeline o d).state)
      ∧ jsonGet doc "artifacts" = some (artifactsJson (runPipeline o d).state) := by
  have h2 : (runPipeline o d).finalWrites
      = match write_final_result o.timestamp (runPipeline o d).state with
        | some doc => [doc]
        | none => [] := rfl
  rw [h2] at h
  unfold write_final_result at h
  by_cases hc : truthyStr (runPipeline o d).state.original_result_file = true
  · rw [if_pos hc] at h
    have hdoc : buildFinalDoc o.timestamp (runPipeline o d).state = doc := by
      simpa using h
    subst hdoc
    exact ⟨parseJsonWith_renderJsonString _ _ le_rfl,
      buildFinalDoc_status _ _, buildFinalDoc_metrics _ _,
      buildFinalDoc_artifacts _ _⟩
  · rw [if_neg hc] at h
    simp at h

/-- A concrete run with a configured report path whose environment
check fails, so the final report records the no-statements outcome. -/
def c9Oracle : RunOracle :=
  { env := fun v => if v = "RESULT_FILE" then some "/r.json" else none
    download := { outcome := .timedOut, workspaceFiles := [], reportContent := none }
    upload := { fileExists := fun _ => false, outcome := fun _ => .timedOut,
                reportContent := fun _ => none }
    timestamp := "2025-01-01T00:00:00+00:00"
    checkRaises := false
    downloadRaises := false
    uploadRaises := false }

/-- **C9 witness**: the round trip evaluated on the concrete report of
a concrete run. -/
theorem c9_round_trip_witness :
    parseJsonWith
        (fuelNeed ((runPipeline c9Oracle "/w").finalWrites.headD Json.null))
        (renderJsonString ((runPipeline c9Oracle "/w").finalWrites.headD Json.null))
      = some ((runPipeline c9Oracle "/w").finalWrites.headD Json.null) :=
  (c9_round_trip c9Oracle "/w"
    ((runPipeline c9Oracle "/w").finalWrites.headD Json.null) (by rfl)).1

end CsasSharePoint
